import Mathlib

/-!
# Todo client (`src/src/App.js`): session, todo list and view state

A shallow embedding of the `App` component.  The React state cells, the two
keys of `localStorage` the component touches and the default `Authorization`
header of the HTTP client are the fields of one record.  An `async` handler is
split where it awaits: the part that runs up to the `await` issues a request
(recorded among the outstanding requests together with what the handler's
closure captured), and the part that runs once the request is answered is a
function of the state at that moment and of the answer.
-/

namespace TodoApp

/-! ## Data model -/

/-- A todo as the backend returns it. -/
structure Todo where
  id : Nat
  title : String
  description : String
  completed : Bool
  created_at : Nat
deriving DecidableEq, Repr

/-- The user object of a session. -/
structure User where
  id : Nat
  email : String
deriving DecidableEq, Repr

/-- The input form `newTodo`. -/
structure NewTodo where
  title : String
  description : String
deriving DecidableEq, Repr

/-- The two keys of `localStorage` the component reads and writes; `none` is an
absent key (`getItem` returns `null`). -/
structure LocalStorage where
  token : Option String
  user : Option String
deriving DecidableEq, Repr

/-- `JSON.stringify` and `JSON.parse` on the values a user can take (`none` is
`null`).  `parse` returns `none` where `JSON.parse` throws.  Both belong to the
runtime, not to the repository, and are taken as a parameter. -/
structure JsonCodec where
  stringify : Option User → String
  parse : String → Option (Option User)

/-- An outstanding HTTP request, with what the awaiting handler closed over:
the handlers of the todo view read `todos` (and `newTodo`) of the render in
which they were created. -/
inductive Request where
  | getTodos
  | postRegister
  | postLogin
  | postTodo (body : NewTodo) (todos : List Todo)
  | putTodo (id : Nat) (completed : Bool) (todos : List Todo)
  | deleteTodo (id : Nat) (todos : List Todo)
deriving DecidableEq, Repr

/-- A value parsed from JSON: what `err.response?.data?.error` can be, and so
what the `error` state can hold.  A number is the value of the parsed double,
`inf` where the literal overflows. -/
inductive Json where
  | null
  | bool (b : Bool)
  | num (value : ℚ)
  | inf (negative : Bool)
  | str (s : String)
  | arr (items : List Json)
  | obj (fields : List (String × Json))

/-- A rejected request: `serverError` is `err.response?.data?.error`, absent
(`none`) for a network error, a body that is no object, or a body without that
field; otherwise whatever JSON value the body holds there. -/
structure Failure where
  serverError : Option Json

/-- The body of a successful login response. -/
structure LoginData where
  token : String
  user : Option User
deriving DecidableEq, Repr

/-- The state of the component and of the two globals it writes. -/
structure App where
  user : Option User
  todos : List Todo
  loading : Bool
  error : Json
  newTodo : NewTodo
  storage : LocalStorage
  authHeader : Option String
  pending : List Request

/-- The `useState` initial values, over a given `localStorage`; the HTTP client
starts without a default `Authorization` header and with nothing in flight. -/
def mount (storage : LocalStorage) : App :=
  { user := none, todos := [], loading := false, error := .str "",
    newTodo := { title := "", description := "" },
    storage := storage, authHeader := none, pending := [] }

/-- Truthiness of what `localStorage.getItem` returns: `null` and the empty
string are falsy. -/
def truthy : Option String → Bool
  | none => false
  | some s => s != ""

/-- Truthiness of a parsed JSON value: `null`, `false`, zero and the empty
string are falsy, every array and object is truthy. -/
def Json.truthy : Json → Bool
  | .null => false
  | .bool b => b
  | .num value => value != 0
  | .inf _ => true
  | .str s => s != ""
  | .arr _ => true
  | .obj _ => true

def Json.isString : Json → Bool
  | .str _ => true
  | _ => false

/-- A non-empty string. -/
def Json.isMessage : Json → Bool
  | .str s => s != ""
  | _ => false

/-- The expression `a || b` with `a = err.response?.data?.error`, `none` being
`undefined`, and `b` a string literal. -/
def orElse (a : Option Json) (b : String) : Json :=
  match a with
  | some v => if v.truthy then v else .str b
  | none => .str b

/-! ## `fetchTodos` (lines 24-34) -/

/-- Up to the `await`: `setLoading(true)` and the GET is sent. -/
def fetchTodos (s : App) : App :=
  { s with loading := true, pending := s.pending ++ [Request.getTodos] }

/-- From the `await` on. -/
def fetchTodos_settle (s : App) (r : Except Failure (List Todo)) : App :=
  match r with
  | .ok data => { s with todos := data, loading := false }
  | .error _ => { s with error := .str "Ошибка загрузки задач", loading := false }

/-! ## The mount effect (lines 15-22) -/

/-- The effect run once after the first render.  `none` where `JSON.parse`
throws; `JSON.parse(null)` reads the text `null`. -/
def bootstrap (codec : JsonCodec) (s : App) : Option App :=
  let token := s.storage.token
  if truthy token then
    let s1 := { s with authHeader := some ("Bearer " ++ token.getD "") }
    match codec.parse (s1.storage.user.getD "null") with
    | some u => some (fetchTodos { s1 with user := u })
    | none => none
  else some s

/-! ## `handleRegister` (lines 36-52) -/

def handleRegister (s : App) : App :=
  { s with loading := true, pending := s.pending ++ [Request.postRegister] }

def handleRegister_settle (s : App) (r : Except Failure Unit) : App :=
  match r with
  | .ok _ => { s with loading := false }
  | .error e => { s with error := orElse e.serverError "Ошибка регистрации", loading := false }

/-! ## `handleLogin` (lines 54-76) -/

def handleLogin (s : App) : App :=
  { s with loading := true, pending := s.pending ++ [Request.postLogin] }

/-- From the `await` on: on success the two `setItem`s, the header, `setUser`,
then `fetchTodos()` called without `await`, so that `finally` runs as soon as
`fetchTodos` has sent its request. -/
def handleLogin_settle (codec : JsonCodec) (s : App) (r : Except Failure LoginData) : App :=
  match r with
  | .ok d =>
    let s1 := { s with storage := { s.storage with token := some d.token } }
    let s2 := { s1 with storage := { s1.storage with user := some (codec.stringify d.user) } }
    let s3 := { s2 with authHeader := some ("Bearer " ++ d.token) }
    let s4 := { s3 with user := d.user }
    let s5 := fetchTodos s4
    { s5 with loading := false }
  | .error e => { s with error := orElse e.serverError "Ошибка входа", loading := false }

/-! ## `handleLogout` (lines 78-84) -/

def handleLogout (s : App) : App :=
  { s with storage := { token := none, user := none }, authHeader := none,
           user := none, todos := [] }

/-! ## `handleCreateTodo` (lines 86-99) -/

def handleCreateTodo (s : App) : App :=
  { s with loading := true, pending := s.pending ++ [Request.postTodo s.newTodo s.todos] }

/-- From the `await` on; `todos` is the list the handler closed over. -/
def handleCreateTodo_settle (s : App) (todos : List Todo) (r : Except Failure Todo) : App :=
  match r with
  | .ok data =>
    { s with todos := data :: todos, newTodo := { title := "", description := "" },
             loading := false }
  | .error e => { s with error := orElse e.serverError "Ошибка создания задачи", loading := false }

/-! ## `handleUpdateTodo` (lines 101-108) -/

def handleUpdateTodo (s : App) (id : Nat) (completed : Bool) : App :=
  { s with pending := s.pending ++ [Request.putTodo id completed s.todos] }

def handleUpdateTodo_settle (s : App) (todos : List Todo) (id : Nat)
    (r : Except Failure Todo) : App :=
  match r with
  | .ok data => { s with todos := todos.map (fun todo => if todo.id = id then data else todo) }
  | .error _ => { s with error := .str "Ошибка обновления задачи" }

/-! ## `handleDeleteTodo` (lines 110-117) -/

def handleDeleteTodo (s : App) (id : Nat) : App :=
  { s with pending := s.pending ++ [Request.deleteTodo id s.todos] }

def handleDeleteTodo_settle (s : App) (todos : List Todo) (id : Nat)
    (r : Except Failure Unit) : App :=
  match r with
  | .ok _ => { s with todos := todos.filter (fun todo => todo.id != id) }
  | .error _ => { s with error := .str "Ошибка удаления задачи" }

/-! ## The component as a transition system -/

/-- The answer to a request: a rejection, or the body of a 2xx response. -/
inductive Reply where
  | failure (e : Failure)
  | todos (data : List Todo)
  | todo (data : Todo)
  | login (data : LoginData)
  | empty

/-- The continuation of the handler awaiting `req`, run on the answer.  `none`
for a body that is not of the shape the endpoint returns. -/
def settle (codec : JsonCodec) (s : App) : Request → Reply → Option App
  | .getTodos, .todos data => some (fetchTodos_settle s (.ok data))
  | .getTodos, .failure e => some (fetchTodos_settle s (.error e))
  | .postRegister, .empty => some (handleRegister_settle s (.ok ()))
  | .postRegister, .failure e => some (handleRegister_settle s (.error e))
  | .postLogin, .login data => some (handleLogin_settle codec s (.ok data))
  | .postLogin, .failure e => some (handleLogin_settle codec s (.error e))
  | .postTodo _ todos, .todo data => some (handleCreateTodo_settle s todos (.ok data))
  | .postTodo _ todos, .failure e => some (handleCreateTodo_settle s todos (.error e))
  | .putTodo id _ todos, .todo data => some (handleUpdateTodo_settle s todos id (.ok data))
  | .putTodo id _ todos, .failure e => some (handleUpdateTodo_settle s todos id (.error e))
  | .deleteTodo id todos, .empty => some (handleDeleteTodo_settle s todos id (.ok ()))
  | .deleteTodo id todos, .failure e => some (handleDeleteTodo_settle s todos id (.error e))
  | _, _ => none

/-- The `i`-th outstanding request is answered: it leaves the outstanding
requests and its handler resumes. -/
def deliver (codec : JsonCodec) (s : App) (i : Nat) (r : Reply) : Option App :=
  match s.pending.get? i with
  | some req => settle codec { s with pending := s.pending.eraseIdx i } req r
  | none => none

/-- What can happen to the mounted component: a page reload, an input event of
the rendered view, or the answer to an outstanding request. -/
inductive Event where
  | reload
  | login
  | register
  | logout
  | editTitle (value : String)
  | editDescription (value : String)
  | create
  | toggle (id : Nat) (completed : Bool)
  | delete (id : Nat)
  | reply (i : Nat) (r : Reply)

/-- One event.  The view rendered for the state (lines 119-204) decides which
input events exist: the two forms of the auth view while `user` is falsy, the
todo view otherwise, submit buttons disabled while `loading`, the title
required, a checkbox and a delete button per listed todo.  `none` for an event
the view does not offer.  The error slot of either view shows `error` as it
is; a state whose `error` is an object cannot be rendered, and its input
events are kept here all the same, so that the runs of the component are among
the runs below. -/
def step (codec : JsonCodec) (s : App) : Event → Option App
  | .reload => bootstrap codec (mount s.storage)
  | .login => if s.user.isNone && !s.loading then some (handleLogin s) else none
  | .register => if s.user.isNone && !s.loading then some (handleRegister s) else none
  | .logout => if s.user.isSome then some (handleLogout s) else none
  | .editTitle v =>
    if s.user.isSome then some { s with newTodo := { s.newTodo with title := v } } else none
  | .editDescription v =>
    if s.user.isSome then some { s with newTodo := { s.newTodo with description := v } }
    else none
  | .create =>
    if s.user.isSome && !s.loading && s.newTodo.title != "" then some (handleCreateTodo s)
    else none
  | .toggle id completed =>
    if s.user.isSome && s.todos.any (fun t => t.id == id) then
      some (handleUpdateTodo s id completed)
    else none
  | .delete id =>
    if s.user.isSome && s.todos.any (fun t => t.id == id) then some (handleDeleteTodo s id)
    else none
  | .reply i r => deliver codec s i r

/-- A sequence of events, `none` as soon as one of them is not possible. -/
def run (codec : JsonCodec) (s : App) : List Event → Option App
  | [] => some s
  | ev :: evs => (step codec s ev).bind (fun s1 => run codec s1 evs)

/-- A request that reads or changes the todo list when it is answered. -/
def Request.isTodoRequest : Request → Bool
  | .postLogin => false
  | .postRegister => false
  | _ => true

/-- The mount effect over `storage` restores no null user: with a truthy token
stored, the stored user does not read back as `null`. -/
def restoresUser (codec : JsonCodec) (storage : LocalStorage) : Bool :=
  !truthy storage.token || codec.parse (storage.user.getD "null") != some none

/-- An event of a quiet run: a reload restores no null user, a login is not
answered with a null user, and the user logs out only with nothing in flight. -/
def calm (codec : JsonCodec) (s : App) : Event → Bool
  | .reload => restoresUser codec s.storage
  | .logout => s.pending.isEmpty
  | .reply _ (.login d) => d.user.isSome
  | _ => true

/-- Every event of the run from `s` is calm in the state where it happens. -/
def calmRun (codec : JsonCodec) : App → List Event → Bool
  | _, [] => true
  | s, ev :: evs =>
    calm codec s ev &&
      match step codec s ev with
      | some s1 => calmRun codec s1 evs
      | none => true

/-- While the user is null the list is empty and no outstanding request is one
whose answer touches the list. -/
def SessionOnly (s : App) : Prop :=
  s.user = none → s.todos = [] ∧ ∀ req ∈ s.pending, req.isTodoRequest = false

/-! ## A small codec for concrete runs -/

def alice : User := { id := 1, email := "alice@example.org" }

def milk : Todo :=
  { id := 7, title := "Buy milk", description := "", completed := false, created_at := 0 }

/-- The serialisations of `null` and of `alice`, and nothing else. -/
def sampleCodec : JsonCodec where
  stringify u :=
    match u with
    | none => "null"
    | some v => "\x7b\"id\":" ++ toString v.id ++ ",\"email\":\"" ++ v.email ++ "\"\x7d"
  parse s :=
    if s = "null" then some none
    else if s = "\x7b\"id\":1,\"email\":\"alice@example.org\"\x7d" then some (some alice)
    else none

/-- The todo view of `alice` with one todo listed and nothing in flight. -/
def sampleState : App :=
  { user := some alice, todos := [milk], loading := false, error := .str "",
    newTodo := { title := "", description := "" },
    storage := { token := some "t", user := some (sampleCodec.stringify (some alice)) },
    authHeader := some "Bearer t", pending := [] }

def eggs : Todo :=
  { id := 3, title := "Buy eggs", description := "a dozen", completed := true, created_at := 5 }

def tea : Todo :=
  { id := 9, title := "Make tea", description := "", completed := false, created_at := 8 }

/-- The todo view of `alice` with three todos listed, `milk` in the middle. -/
def busyState : App := { sampleState with todos := [eggs, milk, tea] }

/-- The body `error` field of a rejection that carries an object, not text. -/
def structuredError : Json := .obj [("message", .str "Invalid credentials")]

/-! ## Answering the request a handler has just sent -/

theorem get?_append_singleton_length (l : List Request) (req : Request) :
    (l ++ [req]).get? l.length = some req := by
  induction l with
  | nil => rfl
  | cons a l ih => simp

theorem eraseIdx_append_singleton_length (l : List Request) (req : Request) :
    (l ++ [req]).eraseIdx l.length = l := by
  induction l with
  | nil => rfl
  | cons a l ih => simpa using ih

/-- Answering the request appended last resumes its handler on the state with
the earlier outstanding requests. -/
theorem deliver_appended (codec : JsonCodec) (s : App) (p : List Request) (req : Request)
    (r : Reply) (h : s.pending = p ++ [req]) :
    deliver codec s p.length r = settle codec { s with pending := p } req r := by
  unfold deliver
  rw [h, get?_append_singleton_length, eraseIdx_append_singleton_length]

/-- What `a || b` evaluates to for a non-empty literal `b`: a truthy value,
which is `a` itself or the literal, and a non-empty string unless it is `a`
and `a` is no string. -/
theorem orElse_spec (a : Option Json) (b : String) (hb : b ≠ "") :
    (orElse a b).truthy = true ∧
    (a = some (orElse a b) ∨ orElse a b = .str b) ∧
    ((orElse a b).isMessage = true ∨ (a = some (orElse a b) ∧ (orElse a b).isString = false)) := by
  have hlit : (Json.str b).truthy = true := by simpa [Json.truthy] using hb
  have hmsg : (Json.str b).isMessage = true := by simpa [Json.isMessage] using hb
  cases a with
  | none => exact ⟨hlit, Or.inr rfl, Or.inl hmsg⟩
  | some v =>
    by_cases hv : v.truthy = true
    · have hor : orElse (some v) b = v := by simp [orElse, hv]
      rw [hor]
      refine ⟨hv, Or.inl rfl, ?_⟩
      cases v with
      | str m => exact Or.inl (by simpa [Json.truthy, Json.isMessage] using hv)
      | null => exact Or.inr ⟨rfl, rfl⟩
      | bool c => exact Or.inr ⟨rfl, rfl⟩
      | num q => exact Or.inr ⟨rfl, rfl⟩
      | inf c => exact Or.inr ⟨rfl, rfl⟩
      | arr items => exact Or.inr ⟨rfl, rfl⟩
      | obj fields => exact Or.inr ⟨rfl, rfl⟩
    · have hor : orElse (some v) b = .str b := by simp [orElse, hv]
      rw [hor]
      exact ⟨hlit, Or.inr rfl, Or.inl hmsg⟩

/-! ## Logout -/

/-- Claim C1: whatever the prior state, after `handleLogout` the user is null,
the todo list is empty, the keys `token` and `user` are absent from local
storage and the default `Authorization` header is absent. -/
theorem handleLogout_clears_session (s : App) :
    (handleLogout s).user = none ∧ (handleLogout s).todos = [] ∧
    (handleLogout s).storage.token = none ∧ (handleLogout s).storage.user = none ∧
    (handleLogout s).authHeader = none :=
  ⟨rfl, rfl, rfl, rfl, rfl⟩

/-! ## Toggle, create, delete on success -/

/-- Claim C2: for an id carried by an entry of the list, when the PUT of
`handleUpdateTodo id completed` is answered with the todo `r`, the new list has
the length of the old one, holds `r` wherever the old entry had that id and the
old entry everywhere else; in particular `r` is in the new list. -/
theorem handleUpdateTodo_replaces_matching (codec : JsonCodec) (s : App) (id : Nat)
    (completed : Bool) (r : Todo) (h : ∃ t ∈ s.todos, t.id = id) :
    ∃ s1, deliver codec (handleUpdateTodo s id completed) s.pending.length (.todo r) = some s1 ∧
      s1.todos.length = s.todos.length ∧
      (∀ (i : Nat) (t : Todo), s.todos[i]? = some t →
        s1.todos[i]? = some (if t.id = id then r else t)) ∧
      r ∈ s1.todos := by
  refine ⟨{ s with todos := s.todos.map (fun todo => if todo.id = id then r else todo) },
    ?_, ?_, ?_, ?_⟩
  · rw [deliver_appended codec (handleUpdateTodo s id completed) s.pending _ _ rfl]
    rfl
  · simp
  · intro i t ht
    simp [List.getElem?_map, ht]
  · obtain ⟨t, ht, hid⟩ := h
    simp only [List.mem_map]
    exact ⟨t, ht, by simp [hid]⟩

/-- Claim C3: whatever the list `L` and the input form, when the POST of
`handleCreateTodo` (whose body is the input form) is answered with the todo
`r`, the new list is `r` followed by `L`, and the input form is reset to empty
title and description. -/
theorem handleCreateTodo_prepends (codec : JsonCodec) (s : App) (r : Todo) :
    (handleCreateTodo s).pending = s.pending ++ [Request.postTodo s.newTodo s.todos] ∧
    ∃ s1, deliver codec (handleCreateTodo s) s.pending.length (.todo r) = some s1 ∧
      s1.todos = r :: s.todos ∧ s1.todos[0]? = some r ∧
      s1.todos.length = s.todos.length + 1 ∧
      s1.newTodo = { title := "", description := "" } := by
  refine ⟨rfl, { s with todos := r :: s.todos, newTodo := { title := "", description := "" },
                        loading := false }, ?_, rfl, by simp, rfl, rfl⟩
  rw [deliver_appended codec (handleCreateTodo s) s.pending _ _ rfl]
  rfl

/-- Claim C4: when the DELETE of `handleDeleteTodo id` succeeds the new list is
the entries of the old one whose id differs from `id`, in order; and when no
entry has that id the list is the old one after a success as after a failure,
the failure setting the error to the delete-failure message. -/
theorem handleDeleteTodo_removes_matching (codec : JsonCodec) (s : App) (id : Nat) :
    (∃ s1, deliver codec (handleDeleteTodo s id) s.pending.length .empty = some s1 ∧
      s1.todos = s.todos.filter (fun t => t.id != id)) ∧
    ((∀ t ∈ s.todos, t.id ≠ id) →
      (∃ s1, deliver codec (handleDeleteTodo s id) s.pending.length .empty = some s1 ∧
        s1.todos = s.todos) ∧
      ∀ e, ∃ s1, deliver codec (handleDeleteTodo s id) s.pending.length (.failure e) = some s1 ∧
        s1.todos = s.todos ∧ s1.error = .str "Ошибка удаления задачи") := by
  have hok : deliver codec (handleDeleteTodo s id) s.pending.length .empty
      = some { s with todos := s.todos.filter (fun todo => todo.id != id) } := by
    rw [deliver_appended codec (handleDeleteTodo s id) s.pending _ _ rfl]
    rfl
  refine ⟨⟨_, hok, rfl⟩, fun hno => ⟨⟨_, hok, ?_⟩, fun e =>
    ⟨{ s with error := .str "Ошибка удаления задачи" }, ?_, rfl, rfl⟩⟩⟩
  · show s.todos.filter (fun todo => todo.id != id) = s.todos
    rw [List.filter_eq_self]
    intro t ht
    simpa using hno t ht
  · rw [deliver_appended codec (handleDeleteTodo s id) s.pending _ _ rfl]
    rfl

/-- Claim C2 at a list of three todos: the one in the middle, with id 7, is
toggled, and the entries before and after it, with ids 3 and 9, stay as they
were and where they were. -/
theorem handleUpdateTodo_replaces_matching_witness :
    (∃ t ∈ busyState.todos, t.id = 7) ∧
    (∃ s1, deliver sampleCodec (handleUpdateTodo busyState 7 true) busyState.pending.length
        (.todo { milk with completed := true }) = some s1 ∧
      s1.todos.length = busyState.todos.length ∧
      (∀ (i : Nat) (t : Todo), busyState.todos[i]? = some t →
        s1.todos[i]? = some (if t.id = 7 then { milk with completed := true } else t)) ∧
      { milk with completed := true } ∈ s1.todos) ∧
    busyState.todos = [eggs, milk, tea] ∧
    ∃ s1, deliver sampleCodec (handleUpdateTodo busyState 7 true) busyState.pending.length
        (.todo { milk with completed := true }) = some s1 ∧
      s1.todos = [eggs, { milk with completed := true }, tea] :=
  ⟨⟨milk, by decide, rfl⟩,
    handleUpdateTodo_replaces_matching sampleCodec busyState 7 true
      { milk with completed := true } ⟨milk, by decide, rfl⟩,
    rfl, _, rfl, rfl⟩

/-- Claim C4 at the todo view of `alice`: no listed todo has id 8. -/
theorem handleDeleteTodo_removes_matching_witness :
    (∀ t ∈ sampleState.todos, t.id ≠ 8) ∧
    (∃ s1, deliver sampleCodec (handleDeleteTodo sampleState 8) sampleState.pending.length
        .empty = some s1 ∧ s1.todos = sampleState.todos) ∧
    ∀ e, ∃ s1, deliver sampleCodec (handleDeleteTodo sampleState 8) sampleState.pending.length
        (.failure e) = some s1 ∧
      s1.todos = sampleState.todos ∧ s1.error = .str "Ошибка удаления задачи" :=
  ⟨by decide, (handleDeleteTodo_removes_matching sampleCodec sampleState 8).2 (by decide)⟩

/-! ## Failures -/

/-- Claim C5 as stated fails in two ways.  The toggle of a listed todo fails
while the POST of a create is still outstanding: the loading flag is true once
the toggle has completed.  And a login is rejected with a body whose `error`
field is an object: the error state is that object, not a message. -/
theorem failed_requests_beyond_claim :
    (∃ s s1,
      run sampleCodec (mount { token := none, user := none })
        [.login, .reply 0 (.login { token := "t", user := some alice }),
         .reply 0 (.todos [milk]), .editTitle "Buy bread", .create] = some s ∧
      step sampleCodec s (.toggle 7 true) = some (handleUpdateTodo s 7 true) ∧
      deliver sampleCodec (handleUpdateTodo s 7 true) s.pending.length
        (.failure { serverError := none }) = some s1 ∧
      s1.loading = true ∧ s1.error = .str "Ошибка обновления задачи") ∧
    (∃ s1,
      run sampleCodec (mount { token := none, user := none })
        [.login, .reply 0 (.failure { serverError := some structuredError })] = some s1 ∧
      s1.error = .obj [("message", .str "Invalid credentials")] ∧
      s1.error.isMessage = false) :=
  ⟨⟨_, _, rfl, rfl, rfl, rfl, rfl⟩, ⟨_, rfl, rfl, rfl⟩⟩

/-- Claim C5, amended.  A failed request of `fetchTodos` sets the loading flag
false and the error to its fixed message.  A failed request of
`handleRegister`, `handleLogin` or `handleCreateTodo` sets the loading flag
false and the error to a truthy value, which is the `error` field of the
rejection or the generic message of the operation, and which is a non-empty
string unless it is that field and the field is no string.  A failed request
of `handleUpdateTodo` or `handleDeleteTodo` sets the error to its fixed
message and leaves the loading flag as it was. -/
theorem failure_sets_error (codec : JsonCodec) (s : App) (e : Failure) :
    (∃ s1, deliver codec (fetchTodos s) s.pending.length (.failure e) = some s1 ∧
      s1.loading = false ∧ s1.error = .str "Ошибка загрузки задач" ∧
      s1.error.isMessage = true) ∧
    (∃ s1, deliver codec (handleRegister s) s.pending.length (.failure e) = some s1 ∧
      s1.loading = false ∧ s1.error.truthy = true ∧
      (e.serverError = some s1.error ∨ s1.error = .str "Ошибка регистрации") ∧
      (s1.error.isMessage = true ∨
        (e.serverError = some s1.error ∧ s1.error.isString = false))) ∧
    (∃ s1, deliver codec (handleLogin s) s.pending.length (.failure e) = some s1 ∧
      s1.loading = false ∧ s1.error.truthy = true ∧
      (e.serverError = some s1.error ∨ s1.error = .str "Ошибка входа") ∧
      (s1.error.isMessage = true ∨
        (e.serverError = some s1.error ∧ s1.error.isString = false))) ∧
    (∃ s1, deliver codec (handleCreateTodo s) s.pending.length (.failure e) = some s1 ∧
      s1.loading = false ∧ s1.error.truthy = true ∧
      (e.serverError = some s1.error ∨ s1.error = .str "Ошибка создания задачи") ∧
      (s1.error.isMessage = true ∨
        (e.serverError = some s1.error ∧ s1.error.isString = false))) ∧
    (∀ id completed, ∃ s1,
      deliver codec (handleUpdateTodo s id completed) s.pending.length (.failure e) = some s1 ∧
      s1.loading = s.loading ∧ s1.error = .str "Ошибка обновления задачи" ∧
      s1.error.isMessage = true) ∧
    (∀ id, ∃ s1,
      deliver codec (handleDeleteTodo s id) s.pending.length (.failure e) = some s1 ∧
      s1.loading = s.loading ∧ s1.error = .str "Ошибка удаления задачи" ∧
      s1.error.isMessage = true) := by
  have hregister := orElse_spec e.serverError "Ошибка регистрации" (by decide)
  have hlogin := orElse_spec e.serverError "Ошибка входа" (by decide)
  have hcreate := orElse_spec e.serverError "Ошибка создания задачи" (by decide)
  have hfetch : (Json.str "Ошибка загрузки задач").isMessage = true := by decide
  have hupdate : (Json.str "Ошибка обновления задачи").isMessage = true := by decide
  have hdelete : (Json.str "Ошибка удаления задачи").isMessage = true := by decide
  exact
    ⟨⟨_, deliver_appended codec (fetchTodos s) s.pending _ _ rfl, rfl, rfl, hfetch⟩,
     ⟨_, deliver_appended codec (handleRegister s) s.pending _ _ rfl, rfl, hregister⟩,
     ⟨_, deliver_appended codec (handleLogin s) s.pending _ _ rfl, rfl, hlogin⟩,
     ⟨_, deliver_appended codec (handleCreateTodo s) s.pending _ _ rfl, rfl, hcreate⟩,
     fun id completed =>
       ⟨_, deliver_appended codec (handleUpdateTodo s id completed) s.pending _ _ rfl, rfl,
         rfl, hupdate⟩,
     fun id =>
       ⟨_, deliver_appended codec (handleDeleteTodo s id) s.pending _ _ rfl, rfl, rfl,
         hdelete⟩⟩

/-! ## Login and the restored session -/

/-- Claim C6: from any state, the logged-out one included, once the POST of
`handleLogin` is answered with a token and a non-null user, the user state is that user, local
storage holds the token and the serialised user, the default `Authorization`
header is `Bearer ` followed by the token, and a GET of the todos has been
sent whose successful answer becomes the todo list. -/
theorem handleLogin_starts_session (codec : JsonCodec) (s : App) (token : String) (u : User) :
    ∃ s1, deliver codec (handleLogin s) s.pending.length
        (.login { token := token, user := some u }) = some s1 ∧
      s1.user = some u ∧
      s1.storage.token = some token ∧
      s1.storage.user = some (codec.stringify (some u)) ∧
      s1.authHeader = some ("Bearer " ++ token) ∧
      s1.pending = s.pending ++ [Request.getTodos] ∧
      ∀ data, ∃ s2, deliver codec s1 s.pending.length (.todos data) = some s2 ∧
        s2.todos = data ∧ s2.user = some u :=
  ⟨_, deliver_appended codec (handleLogin s) s.pending _ _ rfl, rfl, rfl, rfl, rfl, rfl,
    fun _ => ⟨_, deliver_appended codec _ s.pending Request.getTodos _ rfl, rfl, rfl⟩⟩

/-- Claim C7 as stated fails: a login is answered with the empty string for a
token, and the page reloaded over the storage the login left stays logged out
and sends nothing. -/
theorem empty_token_is_not_restored :
    ∃ s1, deliver sampleCodec (handleLogin (mount { token := none, user := none })) 0
        (.login { token := "", user := some alice }) = some s1 ∧
      s1.user = some alice ∧
      ∃ s2, bootstrap sampleCodec (mount s1.storage) = some s2 ∧
        s2.user = none ∧ s2.authHeader = none ∧ s2.pending = [] :=
  ⟨_, rfl, rfl, _, rfl, rfl, rfl, rfl⟩

/-- Claim C7, amended: for a login answered with a non-empty token and a user
that `JSON.parse` reads back from its serialisation, the mount effect run on a
fresh state over the storage the login left sets the user to that user, the
`Authorization` header to `Bearer ` followed by the token, and sends a GET of
the todos; with no stored token it leaves the user null, sends nothing and
sets no error. -/
theorem bootstrap_restores_login (codec : JsonCodec) (s : App) (token : String)
    (user : Option User) (htoken : token ≠ "")
    (hparse : codec.parse (codec.stringify user) = some user) :
    (∃ s1, deliver codec (handleLogin s) s.pending.length
        (.login { token := token, user := user }) = some s1 ∧
      ∃ s2, bootstrap codec (mount s1.storage) = some s2 ∧
        s2.user = user ∧ s2.authHeader = some ("Bearer " ++ token) ∧
        s2.pending = [Request.getTodos]) ∧
    ∀ storage, storage.token = none →
      ∃ s2, bootstrap codec (mount storage) = some s2 ∧
        s2.user = none ∧ s2.pending = [] ∧ s2.error = .str "" := by
  refine ⟨⟨_, deliver_appended codec (handleLogin s) s.pending _ _ rfl, ?_⟩, ?_⟩
  · simp [bootstrap, mount, settle, handleLogin_settle, handleLogin, fetchTodos, truthy,
      htoken, hparse]
  · intro storage hnone
    refine ⟨mount storage, ?_, rfl, rfl, rfl⟩
    simp [bootstrap, mount, truthy, hnone]

/-- Claim C7, amended, at a login answered with token `t` and user `alice`. -/
theorem bootstrap_restores_login_witness :
    ("t" ≠ "" ∧ sampleCodec.parse (sampleCodec.stringify (some alice)) = some (some alice)) ∧
    (∃ s1, deliver sampleCodec (handleLogin (mount { token := none, user := none }))
        (mount { token := none, user := none }).pending.length
        (.login { token := "t", user := some alice }) = some s1 ∧
      ∃ s2, bootstrap sampleCodec (mount s1.storage) = some s2 ∧
        s2.user = some alice ∧ s2.authHeader = some ("Bearer " ++ "t") ∧
        s2.pending = [Request.getTodos]) ∧
    ∀ storage, storage.token = none →
      ∃ s2, bootstrap sampleCodec (mount storage) = some s2 ∧
        s2.user = none ∧ s2.pending = [] ∧ s2.error = .str "" :=
  ⟨⟨by decide, by decide⟩,
    bootstrap_restores_login sampleCodec (mount { token := none, user := none }) "t"
      (some alice) (by decide) (by decide)⟩

/-! ## The loading flag and the error while requests are outstanding -/

/-- Claim C9 on the code: whatever the state and the login answer, once
`handleLogin` has resumed on a successful answer the GET of the todos it
started is outstanding and the loading flag is false; `fetchTodos` itself
raises the flag when it sends that GET, and the mount effect, which starts the
same GET, leaves it raised. -/
theorem login_fetch_runs_without_loading (codec : JsonCodec) (s : App) (d : LoginData) :
    (∃ s1, deliver codec (handleLogin s) s.pending.length (.login d) = some s1 ∧
      Request.getTodos ∈ s1.pending ∧ s1.loading = false) ∧
    (Request.getTodos ∈ (fetchTodos s).pending ∧ (fetchTodos s).loading = true) ∧
    ∃ s2, bootstrap sampleCodec
        (mount { token := some "t", user := some (sampleCodec.stringify (some alice)) })
        = some s2 ∧
      Request.getTodos ∈ s2.pending ∧ s2.loading = true := by
  refine ⟨⟨_, deliver_appended codec (handleLogin s) s.pending _ _ rfl, ?_, rfl⟩,
    ⟨?_, rfl⟩, _, rfl, ?_, rfl⟩
  · simp [handleLogin_settle, fetchTodos]
  · simp [fetchTodos]
  · simp [fetchTodos]

/-- Claim C10 as stated fails: a login fails, the next login succeeds and its
fetch succeeds, and the error of the failed login is still set. -/
theorem success_keeps_earlier_error :
    ∃ s0 s1,
      run sampleCodec (mount { token := none, user := none })
        [.login, .reply 0 (.failure { serverError := none })] = some s0 ∧
      s0.error = .str "Ошибка входа" ∧
      run sampleCodec s0
        [.login, .reply 0 (.login { token := "t", user := some alice }),
         .reply 0 (.todos [milk])] = some s1 ∧
      s1.user = some alice ∧ s1.todos = [milk] ∧ s1.error = .str "Ошибка входа" :=
  ⟨_, _, rfl, rfl, rfl, rfl, rfl, rfl⟩

/-- Claim C10, amended: a successful login, register, fetch, create, toggle or
delete leaves the error as it was; no success clears it. -/
theorem success_leaves_error (codec : JsonCodec) (s : App) :
    (∀ d, ∃ s1, deliver codec (handleLogin s) s.pending.length (.login d) = some s1 ∧
      s1.error = s.error) ∧
    (∃ s1, deliver codec (handleRegister s) s.pending.length .empty = some s1 ∧
      s1.error = s.error) ∧
    (∀ data, ∃ s1, deliver codec (fetchTodos s) s.pending.length (.todos data) = some s1 ∧
      s1.error = s.error) ∧
    (∀ r, ∃ s1, deliver codec (handleCreateTodo s) s.pending.length (.todo r) = some s1 ∧
      s1.error = s.error) ∧
    (∀ id completed r, ∃ s1,
      deliver codec (handleUpdateTodo s id completed) s.pending.length (.todo r) = some s1 ∧
      s1.error = s.error) ∧
    (∀ id, ∃ s1, deliver codec (handleDeleteTodo s id) s.pending.length .empty = some s1 ∧
      s1.error = s.error) :=
  ⟨fun _ => ⟨_, deliver_appended codec (handleLogin s) s.pending _ _ rfl, rfl⟩,
   ⟨_, deliver_appended codec (handleRegister s) s.pending _ _ rfl, rfl⟩,
   fun _ => ⟨_, deliver_appended codec (fetchTodos s) s.pending _ _ rfl, rfl⟩,
   fun _ => ⟨_, deliver_appended codec (handleCreateTodo s) s.pending _ _ rfl, rfl⟩,
   fun id completed _ =>
     ⟨_, deliver_appended codec (handleUpdateTodo s id completed) s.pending _ _ rfl, rfl⟩,
   fun id => ⟨_, deliver_appended codec (handleDeleteTodo s id) s.pending _ _ rfl, rfl⟩⟩

/-! ## The todo list and the session -/

/-- Claim C8 as stated fails: the list outlives the session in two ways.  A GET started by a login is
answered after the user has logged out; and the page is loaded over a stored
token without a stored user, so that the mount effect sets a null user and
fetches.  Either way the user is null and the list holds a todo. -/
theorem todos_without_session :
    (∃ s0 s,
      bootstrap sampleCodec (mount { token := none, user := none }) = some s0 ∧
      run sampleCodec s0
        [.login, .reply 0 (.login { token := "t", user := some alice }), .logout,
         .reply 0 (.todos [milk])] = some s ∧
      s.user = none ∧ s.todos = [milk]) ∧
    (∃ s0 s,
      bootstrap sampleCodec (mount { token := some "t", user := none }) = some s0 ∧
      run sampleCodec s0 [.reply 0 (.todos [milk])] = some s ∧
      s.user = none ∧ s.todos = [milk]) :=
  ⟨⟨_, _, rfl, rfl, rfl, rfl⟩, ⟨_, _, rfl, rfl, rfl, rfl⟩⟩

theorem sessionOnly_bootstrap (codec : JsonCodec) (storage : LocalStorage) (s0 : App)
    (hstore : restoresUser codec storage = true)
    (hboot : bootstrap codec (mount storage) = some s0) : SessionOnly s0 := by
  intro hnull
  unfold bootstrap at hboot
  by_cases htok : truthy storage.token = true
  · simp only [mount, htok, if_true] at hboot
    split at hboot
    · rename_i u hu
      simp only [Option.some.injEq] at hboot
      subst hboot
      simp only [fetchTodos] at hnull
      subst hnull
      simp [restoresUser, htok, hu] at hstore
    · simp at hboot
  · simp only [mount, htok] at hboot
    simp only [Bool.false_eq_true, if_false, Option.some.injEq] at hboot
    subst hboot
    exact ⟨rfl, by simp⟩

theorem sessionOnly_deliver (codec : JsonCodec) (s s1 : App) (i : Nat) (r : Reply)
    (hinv : SessionOnly s) (hcalm : calm codec s (.reply i r) = true)
    (hstep : deliver codec s i r = some s1) : SessionOnly s1 := by
  unfold deliver at hstep
  split at hstep
  · rename_i req hreq
    have hmem : req ∈ s.pending := List.get?_mem hreq
    have hsub : ∀ q ∈ s.pending.eraseIdx i, q ∈ s.pending :=
      fun q hq => List.mem_of_mem_eraseIdx hq
    intro hnull
    cases req <;> cases r <;> simp only [settle, Option.some.injEq] at hstep <;>
      first
      | exact absurd hstep (by simp)
      | (subst hstep
         simp only [fetchTodos_settle, handleRegister_settle, handleLogin_settle,
           handleCreateTodo_settle, handleUpdateTodo_settle, handleDeleteTodo_settle,
           fetchTodos] at hnull ⊢
         first
         | exact ⟨(hinv hnull).1, fun q hq => (hinv hnull).2 q (hsub q hq)⟩
         | exact absurd ((hinv hnull).2 _ hmem) (by simp [Request.isTodoRequest])
         | (simp [calm, hnull] at hcalm))
  · simp at hstep

theorem sessionOnly_step (codec : JsonCodec) (s s1 : App) (ev : Event)
    (hinv : SessionOnly s) (hcalm : calm codec s ev = true)
    (hstep : step codec s ev = some s1) : SessionOnly s1 := by
  cases ev with
  | reload => exact sessionOnly_bootstrap codec s.storage s1 hcalm hstep
  | reply i r => exact sessionOnly_deliver codec s s1 i r hinv hcalm hstep
  | login =>
    simp only [step] at hstep
    split at hstep
    · simp only [Option.some.injEq] at hstep
      subst hstep
      intro hnull
      refine ⟨(hinv hnull).1, fun q hq => ?_⟩
      simp only [handleLogin, List.mem_append, List.mem_singleton] at hq
      rcases hq with hq | hq
      · exact (hinv hnull).2 q hq
      · subst hq; rfl
    · simp at hstep
  | register =>
    simp only [step] at hstep
    split at hstep
    · simp only [Option.some.injEq] at hstep
      subst hstep
      intro hnull
      refine ⟨(hinv hnull).1, fun q hq => ?_⟩
      simp only [handleRegister, List.mem_append, List.mem_singleton] at hq
      rcases hq with hq | hq
      · exact (hinv hnull).2 q hq
      · subst hq; rfl
    · simp at hstep
  | logout =>
    simp only [step] at hstep
    split at hstep
    · simp only [Option.some.injEq] at hstep
      subst hstep
      intro _
      have hp : s.pending = [] := by simpa [calm] using hcalm
      exact ⟨rfl, by simp [handleLogout, hp]⟩
    · simp at hstep
  | editTitle v =>
    simp only [step] at hstep
    split at hstep
    · rename_i huser
      simp only [Option.some.injEq] at hstep
      subst hstep
      intro hnull
      simp [show s.user = none from hnull] at huser
    · simp at hstep
  | editDescription v =>
    simp only [step] at hstep
    split at hstep
    · rename_i huser
      simp only [Option.some.injEq] at hstep
      subst hstep
      intro hnull
      simp [show s.user = none from hnull] at huser
    · simp at hstep
  | create =>
    simp only [step] at hstep
    split at hstep
    · rename_i huser
      simp only [Option.some.injEq] at hstep
      subst hstep
      intro hnull
      simp [show s.user = none from hnull] at huser
    · simp at hstep
  | toggle id completed =>
    simp only [step] at hstep
    split at hstep
    · rename_i huser
      simp only [Option.some.injEq] at hstep
      subst hstep
      intro hnull
      simp [show s.user = none from hnull] at huser
    · simp at hstep
  | delete id =>
    simp only [step] at hstep
    split at hstep
    · rename_i huser
      simp only [Option.some.injEq] at hstep
      subst hstep
      intro hnull
      simp [show s.user = none from hnull] at huser
    · simp at hstep

theorem sessionOnly_run (codec : JsonCodec) (evs : List Event) :
    ∀ s s1, SessionOnly s → calmRun codec s evs = true → run codec s evs = some s1 →
      SessionOnly s1 := by
  induction evs with
  | nil =>
    intro s s1 hinv _ hrun
    simp only [run, Option.some.injEq] at hrun
    subst hrun
    exact hinv
  | cons ev evs ih =>
    intro s s1 hinv hcalm hrun
    simp only [run] at hrun
    cases hstep : step codec s ev with
    | none => simp [hstep] at hrun
    | some s2 =>
      simp only [hstep, Option.some_bind] at hrun
      simp only [calmRun, hstep, Bool.and_eq_true] at hcalm
      exact ih s2 s1 (sessionOnly_step codec s s2 ev hinv hcalm.1 hstep) hcalm.2 hrun

/-- Claim C8, amended: the page is loaded over any local storage and any
events follow with any answers, provided no null user is restored from storage
or returned by a login and the user logs out only while no request is
outstanding; then whenever the user is null the todo list is empty. -/
theorem todos_only_with_session (codec : JsonCodec) (storage : LocalStorage)
    (evs : List Event) (s0 s : App)
    (hstore : restoresUser codec storage = true)
    (hboot : bootstrap codec (mount storage) = some s0)
    (hcalm : calmRun codec s0 evs = true)
    (hrun : run codec s0 evs = some s)
    (hnull : s.user = none) : s.todos = [] :=
  (sessionOnly_run codec evs s0 s (sessionOnly_bootstrap codec storage s0 hstore hboot)
    hcalm hrun hnull).1

/-- Claim C8, amended, at a run that logs in, receives the list and logs out. -/
theorem todos_only_with_session_witness :
    ∃ s,
      run sampleCodec (mount { token := none, user := none })
        [.login, .reply 0 (.login { token := "t", user := some alice }),
         .reply 0 (.todos [milk]), .logout] = some s ∧
      s.user = none ∧ s.todos = [] :=
  ⟨_, rfl, rfl,
    todos_only_with_session sampleCodec { token := none, user := none }
      [.login, .reply 0 (.login { token := "t", user := some alice }),
       .reply 0 (.todos [milk]), .logout]
      (mount { token := none, user := none }) _ rfl rfl rfl rfl rfl⟩

end TodoApp
